import Mathlib

set_option maxHeartbeats 1000000
set_option maxRecDepth 8000

/- Shallow embedding of src/imap_migrator.py.

   Mailbox names and raw listing lines are modelled as `String`; message
   bodies and flag atoms (Python `bytes`) as `List Char`.  The outcomes of
   IMAP calls are supplied by oracle environments (`Env`, `MEnv`, `JobEnv`),
   and each run produces a trace of `Event`s recording the IMAP commands
   issued and the log lines that matter for control flow.  All definitions
   use structural recursion (fuel where needed) so that every trace can be
   evaluated by `decide`. -/

/-- Double-quote character, written via its code point. -/
def dqc : Char := Char.ofNat 34

/-- Single-quote character (the quote of a Python `bytes` repr). -/
def sqc : Char := Char.ofNat 39

/-- Letter b, the prefix character of a Python `bytes` repr. -/
def bqc : Char := Char.ofNat 98

/-- Backslash character. -/
def bslc : Char := Char.ofNat 92

/- ------------------------------------------------------------------ -/
/- Mailbox Name Resolver: `get_mailbox_name` (imap_migrator.py lines 8-15) -/
/- ------------------------------------------------------------------ -/

/-- Semantics of `re.search(r'"([^"]+)"$', s)`: the pattern matches exactly
    when `s` ends with a double quote that closes a nonempty run of
    non-quote characters opened by another double quote; the group is that
    run, i.e. the content between the final pair of quotes.  (Inputs are
    decoded LIST lines without a trailing newline, so the `$` anchor is
    plain end-of-string.)  Returns the matched group. -/
def quotedTail (l : List Char) : Option (List Char) :=
  match l.reverse with
  | [] => none
  | c0 :: rest =>
    if c0 = dqc then
      if rest.takeWhile (fun ch => ch != dqc) = [] then none
      else
        match rest.drop (rest.takeWhile (fun ch => ch != dqc)).length with
        | [] => none
        | d :: _ =>
          if d = dqc then some (rest.takeWhile (fun ch => ch != dqc)).reverse
          else none
    else none

/-- Fuel-driven worker for Python `str.split()` with no separator: the list
    of maximal runs of non-whitespace characters.  One unit of fuel is spent
    per extracted token; each token consumes at least one character, so
    `l.length` fuel is always enough. -/
def wsTokensAux : Nat → List Char → List (List Char)
  | _, [] => []
  | 0, _ => []
  | fuel + 1, l =>
    match l.dropWhile Char.isWhitespace with
    | [] => []
    | c :: cs =>
      ((c :: cs).takeWhile (fun ch => !ch.isWhitespace))
        :: wsTokensAux fuel ((c :: cs).dropWhile (fun ch => !ch.isWhitespace))

/-- Python `s.split()`: whitespace-separated tokens, empty strings dropped. -/
def wsTokens (l : List Char) : List (List Char) := wsTokensAux l.length l

/-- Lines 8-15: extract the mailbox name from a raw LIST line.  The regex
    branch returns the content between the final pair of quotes; otherwise
    Python evaluates `mailbox_string.split()[-1]`, which raises `IndexError`
    when the token list is empty — modelled as `none`. -/
def get_mailbox_name (s : String) : Option String :=
  match quotedTail s.toList with
  | some c => some (String.mk c)
  | none => ((wsTokens s.toList).getLast?).map String.mk

/- ------------------------------------------------------------------ -/
/- Flag-string cleanup (line 135) -/
/- ------------------------------------------------------------------ -/

/-- Escaping performed by the repr of a Python `bytes` object for the
    characters occurring in IMAP flag atoms: a backslash shows as two
    backslashes, a single quote as backslash-quote, everything else
    verbatim. -/
def reprEsc (c : Char) : List Char :=
  if c = bslc then [bslc, bslc] else if c = sqc then [bslc, sqc] else [c]

/-- Python `str(f)` for a bytes object `f`: `b'` + escaped contents + `'`. -/
def pyReprBytes (s : List Char) : List Char :=
  [bqc, sqc] ++ (s.flatMap reprEsc) ++ [sqc]

/-- Fuel-driven worker for Python `str.replace`: replace the leftmost
    occurrences of `pat`, non-overlapping, scanning left to right.  One unit
    of fuel is consumed per step and each step consumes at least one input
    character, so `l.length` fuel suffices. -/
def replAux (pat rep : List Char) : Nat → List Char → List Char
  | _, [] => []
  | 0, l => l
  | fuel + 1, c :: cs =>
    if !pat.isEmpty && pat.isPrefixOf (c :: cs) then
      rep ++ replAux pat rep fuel ((c :: cs).drop pat.length)
    else
      c :: replAux pat rep fuel cs

/-- Python `l.replace(pat, rep)` (for the nonempty patterns used here). -/
def pyReplace (l pat rep : List Char) : List Char :=
  replAux pat rep l.length l

/-- Line 135, per flag: `str(f).replace("b'\\", "").replace("'", "")`.
    The first pattern is the three characters b, quote, backslash. -/
def flagClean (f : List Char) : List Char :=
  pyReplace (pyReplace (pyReprBytes f) [bqc, sqc, bslc] []) [sqc] []

/-- Line 135: `' '.join([... for f in flags])`. -/
def flags_strC (fs : List (List Char)) : List Char :=
  List.intercalate [' '] (fs.map flagClean)

/-- Line 170: the flag literal `f"({flags_str})"` passed to STORE. -/
def storeLiteral (fs : List (List Char)) : String :=
  String.mk ('(' :: flags_strC fs ++ [')'])

/- ------------------------------------------------------------------ -/
/- Events and oracle environments -/
/- ------------------------------------------------------------------ -/

/-- Observable events of a migration run: IMAP commands issued and the
    log lines that reflect control-flow decisions.  The constructor
    `logBatchCount` is emitted only by the spec-modelled batched engine
    (section 4.4 of the spec), never by the code's embedding. -/
inductive Event where
  | connectSrc
  | connectDst
  | logFatal
  | logListError
  | selectSrcTry (v : String)
  | logSelectExc (v : String)
  | logSelected (v : String)
  | logSkipMailbox (name : String)
  | createDst (name : String)
  | subscribeDst (name : String)
  | logMailboxCreated (name : String)
  | logCreateFail (name : String)
  | searchSrc (name : String)
  | logSearchFail (name : String)
  | fetchFlags (n : Nat)
  | logFlagsFail (n : Nat)
  | fetchHeader (n : Nat)
  | fetchBody (n : Nat)
  | logBodyFail (n : Nat)
  | append (mbox : String) (n : Nat)
  | selectDst (mbox : String)
  | searchDst
  | store (dstNum : Nat) (flagsLiteral : String)
  | logMigrated (n : Nat)
  | logSaveFail (n : Nat)
  | logMailboxDone (name : String)
  | logFinished
  | logoutSrc
  | logoutDst
  | logBatchCount (k : Nat)
  deriving DecidableEq

/-- Outcome of one `src_imap.select(variant, readonly=True)` attempt:
    affirmative status, non-OK status (no log, next variant), or a raised
    exception (logged at line 112, next variant). -/
inductive SelectRes where
  | ok
  | bad
  | exc
  deriving DecidableEq

/-- Per-message oracles for the transfer loop (lines 127-174).  A `none`
    fetch result models a non-OK status; the `Exc` booleans model an
    `imaplib` exception raised by the corresponding destination call inside
    the try block of lines 156-174; `dstSearchRes` is the destination
    `search(None, 'ALL')` result (`none` = non-OK status). -/
structure Env where
  fetchFlags : Nat → Option (List (List Char))
  fetchBody : Nat → Option (List Char)
  appendExc : Nat → Bool
  dstSelectExc : Nat → Bool
  dstSearchExc : Nat → Bool
  dstSearchRes : Nat → Option (List Nat)
  storeExc : Nat → Bool

/-- Status returned by an `imaplib` command that completes without raising:
    `ok` for an OK response, `no` for a NO response.  `imaplib.IMAP4.error`
    is raised only for BAD responses or aborted connections; command
    failures such as CREATE on an already existing mailbox come back as a
    returned NO status, not as an exception. -/
inductive CmdStatus where
  | ok
  | no
  deriving DecidableEq

/-- Per-mailbox oracles: source-select outcome per variant string; whether
    `create`/`subscribe` on the destination raise `imaplib.IMAP4.error`
    (BAD/abort); the statuses those calls return when they do not raise
    (e.g. NO for "already exists" — lines 66-67 discard them); and the
    source `search(None, 'ALL')` result (`none` = non-OK status,
    line 122). -/
structure MEnv where
  env : Env
  sel : String → SelectRes
  createExc : Bool
  subscribeExc : Bool
  createStatus : CmdStatus
  subscribeStatus : CmdStatus
  searchRes : Option (List Nat)

/- ------------------------------------------------------------------ -/
/- Mailbox Selector (lines 105-115) -/
/- ------------------------------------------------------------------ -/

/-- Line 105: `f'"{mailbox_name}"'`. -/
def quoted (s : String) : String := "\"" ++ s ++ "\""

/-- Line 105: `f'INBOX.{mailbox_name}'`. -/
def inboxed (s : String) : String := "INBOX." ++ s

/-- Line 105: the fixed, ordered list of naming variants. -/
def selectVariants (name : String) : List String :=
  [name, quoted name, inboxed name, quoted (inboxed name)]

/-- Lines 105-112: try each variant in order; stop at the first variant the
    server accepts (`status == 'OK'`); a raised exception is logged; a
    non-OK status is silently skipped.  Returns the events of the attempts
    and the accepted variant, if any. -/
def trySelect (sel : String → SelectRes) : List String → List Event × Option String
  | [] => ([], none)
  | v :: vs =>
    match sel v with
    | SelectRes.ok => ([Event.selectSrcTry v, Event.logSelected v], some v)
    | SelectRes.bad =>
      (Event.selectSrcTry v :: (trySelect sel vs).1, (trySelect sel vs).2)
    | SelectRes.exc =>
      (Event.selectSrcTry v :: Event.logSelectExc v :: (trySelect sel vs).1,
       (trySelect sel vs).2)

/- ------------------------------------------------------------------ -/
/- Mailbox Provisioner: `create_mailbox` (lines 63-70) -/
/- ------------------------------------------------------------------ -/

/-- Lines 63-70: `create` then `subscribe` inside one try; an
    `imaplib.IMAP4.error` raised by either call (BAD response or aborted
    connection) is caught and logged, and a raising `create` skips the
    `subscribe`.  The statuses the two calls return (`createStatus`,
    `subscribeStatus`) are discarded by the code — the trace does not
    depend on them — so a returned NO such as "already exists" reaches the
    success branch and the creation log line is printed. -/
def create_mailbox (createExc subscribeExc : Bool)
    (_createStatus _subscribeStatus : CmdStatus) (name : String) : List Event :=
  Event.createDst name ::
    if createExc then [Event.logCreateFail name]
    else
      Event.subscribeDst name ::
        if subscribeExc then [Event.logCreateFail name]
        else [Event.logMailboxCreated name]

/- ------------------------------------------------------------------ -/
/- Message transfer (lines 127-174) -/
/- ------------------------------------------------------------------ -/

/-- Lines 155-174: the try block per message: `append` to the destination
    mailbox, `select` the destination mailbox, `search` it, and if the
    search status is OK and the id list nonempty, `store` the flags on the
    last id; any exception raised inside is caught and logged at line 174
    and the loop continues with the next message. -/
def saveMessage (env : Env) (mbox : String) (n : Nat) (fl : List (List Char)) :
    List Event :=
  Event.append mbox n ::
    if env.appendExc n then [Event.logSaveFail n]
    else
      Event.selectDst mbox ::
        if env.dstSelectExc n then [Event.logSaveFail n]
        else
          Event.searchDst ::
            if env.dstSearchExc n then [Event.logSaveFail n]
            else
              match env.dstSearchRes n with
              | none => [Event.logMigrated n]
              | some [] => [Event.logMigrated n]
              | some (d :: ds) =>
                Event.store ((d :: ds).getLast (by simp)) (storeLiteral fl) ::
                  if env.storeExc n then [Event.logSaveFail n]
                  else [Event.logMigrated n]

/-- Lines 128-174, one loop iteration: fetch the flags (non-OK: log and
    skip the message), fetch the header (outcome does not affect control
    flow), fetch the full body (non-OK: log and skip the message), then
    save the message to the destination. -/
def processMessage (env : Env) (mbox : String) (n : Nat) : List Event :=
  Event.fetchFlags n ::
    match env.fetchFlags n with
    | none => [Event.logFlagsFail n]
    | some fl =>
      Event.fetchHeader n ::
        Event.fetchBody n ::
          match env.fetchBody n with
          | none => [Event.logBodyFail n]
          | some _ => saveMessage env mbox n fl

/-- Line 127: `for num in messages[0].split():` — the full identifier list
    of the mailbox is traversed in one undivided pass, one message at a
    time; there is no partition into batches. -/
def transferMessages (env : Env) (mbox : String) : List Nat → List Event
  | [] => []
  | n :: rest => processMessage env mbox n ++ transferMessages env mbox rest

/- ------------------------------------------------------------------ -/
/- Per-mailbox processing (lines 100-176) -/
/- ------------------------------------------------------------------ -/

/-- Lines 120-176: source search (non-OK: log and continue with the next
    mailbox), then the message loop, then the per-mailbox completion log. -/
def transferPart (m : MEnv) (name : String) : List Event :=
  Event.searchSrc name ::
    match m.searchRes with
    | none => [Event.logSearchFail name]
    | some ids => transferMessages m.env name ids ++ [Event.logMailboxDone name]

/-- Lines 104-176, one mailbox: try the four selection variants; if none is
    accepted, log and skip the mailbox entirely (no provisioning, no
    transfer); otherwise provision the destination mailbox under the
    canonical (unprefixed) name and run the transfer. -/
def processMailbox (m : MEnv) (name : String) : List Event :=
  match (trySelect m.sel (selectVariants name)).2 with
  | none => (trySelect m.sel (selectVariants name)).1 ++ [Event.logSkipMailbox name]
  | some _ =>
    (trySelect m.sel (selectVariants name)).1
      ++ create_mailbox m.createExc m.subscribeExc m.createStatus m.subscribeStatus name
      ++ transferPart m name

/-- Lines 100-176: the mailbox loop.  Each raw LIST line is resolved to a
    canonical name; a resolver `IndexError` (empty line) is not caught
    anywhere inside the loop, so it aborts the remaining mailboxes and is
    logged by the job-level handler (returned flag `true`). -/
def processMailboxes (menv : String → MEnv) : List String → List Event × Bool
  | [] => ([], false)
  | raw :: rest =>
    match get_mailbox_name raw with
    | none => ([Event.logFatal], true)
    | some name =>
      (processMailbox (menv name) name ++ (processMailboxes menv rest).1,
       (processMailboxes menv rest).2)

/- ------------------------------------------------------------------ -/
/- Job level: `migrate_emails` (lines 72-190) -/
/- ------------------------------------------------------------------ -/

/-- Job-level oracles.  `srcConnOk` is the success of `IMAP4_SSL(src)`
    (on failure `src_imap` is never bound), `srcLoginOk` of the source
    `login`; likewise for the destination.  `listRes = none` models a
    non-OK `list()` status (logged, early return).  `srcLogoutExc` and
    `dstLogoutExc` say whether the corresponding `logout()` raises; both
    raises are swallowed by the bare `except` of lines 186-190, but a
    raising source logout skips the destination logout. -/
structure JobEnv where
  srcConnOk : Bool
  srcLoginOk : Bool
  dstConnOk : Bool
  dstLoginOk : Bool
  listRes : Option (List String)
  menv : String → MEnv
  srcLogoutExc : Bool
  dstLogoutExc : Bool

/-- Whether `dst_imap` is bound when the finally block runs: the source
    connect and login must have succeeded (else the dst connect is never
    reached) and `IMAP4_SSL(dst)` itself must have succeeded. -/
def dstBound (j : JobEnv) : Bool :=
  j.srcConnOk && j.srcLoginOk && j.dstConnOk

/-- Lines 184-190: the finally block.  `src_imap.logout()` and
    `dst_imap.logout()` sit in ONE try with a bare `except: pass`.  If
    `src_imap` was never bound, the first statement raises `NameError`
    immediately and no logout is attempted; if the source logout raises,
    the destination logout is never attempted; an unbound `dst_imap`
    likewise raises after the source logout.  Nothing propagates. -/
def finallyEvents (j : JobEnv) : List Event :=
  if j.srcConnOk then
    Event.logoutSrc ::
      (if j.srcLogoutExc then []
       else if dstBound j then [Event.logoutDst] else [])
  else []

/-- Lines 76-183: the try body of `migrate_emails`: connect and log in both
    ends (an exception is caught by the handlers of lines 180-183 and
    logged), list the source mailboxes (non-OK status: log and return),
    process each mailbox, and log overall completion if the loop was not
    aborted. -/
def jobBody (j : JobEnv) : List Event :=
  if j.srcConnOk && j.srcLoginOk then
    Event.connectSrc ::
      if j.dstConnOk && j.dstLoginOk then
        Event.connectDst ::
          match j.listRes with
          | none => [Event.logListError]
          | some raws =>
            (processMailboxes j.menv raws).1
              ++ if (processMailboxes j.menv raws).2 then [] else [Event.logFinished]
      else [Event.logFatal]
  else [Event.logFatal]

/-- Lines 72-190: `migrate_emails` — the try body followed by the finally
    block, on every exit path. -/
def migrate_emails (j : JobEnv) : List Event :=
  jobBody j ++ finallyEvents j

/- ------------------------------------------------------------------ -/
/- Config loading and main (lines 17-47, 193-207) -/
/- ------------------------------------------------------------------ -/

/-- Python `line.split(sep)` for a one-character separator: split at every
    occurrence, keeping empty pieces; `''.split(sep) == ['']`. -/
def splitOnChar (sep : Char) : List Char → List (List Char)
  | [] => [[]]
  | c :: cs =>
    if c = sep then [] :: splitOnChar sep cs
    else
      match splitOnChar sep cs with
      | [] => [[c]]
      | t :: ts => (c :: t) :: ts

/-- Python `line.strip()`: drop leading and trailing whitespace. -/
def stripWs (l : List Char) : List Char :=
  ((l.dropWhile Char.isWhitespace).reverse.dropWhile Char.isWhitespace).reverse

/-- One side of a migration job: the 3 comma-separated fields. -/
abbrev JobSide := List (List Char)

/-- Lines 29-37: split the line on a semicolon into exactly two sides
    (`source, destination = line.split(';')` raises `ValueError` for any
    other count), split each side on commas, and require exactly 3 fields
    on each side (else `raise ValueError("Invalid format")`).  `none`
    models the `ValueError`. -/
def parseJobLine (line : List Char) : Option (JobSide × JobSide) :=
  match splitOnChar ';' line with
  | [src, dst] =>
    if (splitOnChar ',' src).length = 3 ∧ (splitOnChar ',' dst).length = 3 then
      some (splitOnChar ',' src, splitOnChar ',' dst)
    else none
  | _ => none

/-- The characters of `debug=`, the prefix tested at line 26. -/
def dbgPref : List Char := "debug=".toList

/-- Line 27: `line.split('=')[1].lower() == 'true'` (index 1 exists because
    the line starts with `debug=`). -/
def parseDebug (line : List Char) : Bool :=
  match splitOnChar '=' line with
  | _ :: second :: _ => second.map Char.toLower == "true".toList
  | _ => false

/-- Lines 24-37: fold over the stripped file lines, collecting jobs in
    order; a `debug=` line updates the flag; any line that fails to parse
    raises `ValueError`, modelled as `none`. -/
def readLines (debug : Bool) (acc : List (JobSide × JobSide)) :
    List (List Char) → Option (Bool × List (JobSide × JobSide))
  | [] => some (debug, acc.reverse)
  | l :: ls =>
    if dbgPref.isPrefixOf (stripWs l) then readLines (parseDebug (stripWs l)) acc ls
    else
      match parseJobLine (stripWs l) with
      | none => none
      | some j => readLines debug (j :: acc) ls

/-- Lines 17-47: `read_config_file`.  `none` as input models a missing
    `emails.txt` (`FileNotFoundError`); the result `none` models the paths
    that print the usage message and call `sys.exit(1)`. -/
def read_config_file (file : Option (List (List Char))) :
    Option (Bool × List (JobSide × JobSide)) :=
  match file with
  | none => none
  | some lines => readLines false [] lines

/-- Lines 193-207: `main` — exit status and the concatenated traces of all
    jobs, in order.  On a config error the process exits 1 with no network
    activity; otherwise every job runs (each one catching its own errors)
    and the process exits 0. -/
def main_run (file : Option (List (List Char))) (jenvOf : Nat → JobEnv) :
    Nat × List Event :=
  match read_config_file file with
  | none => (1, [])
  | some (_, ms) =>
    (0, ((List.range ms.length).map fun i => migrate_emails (jenvOf i)).flatten)

/- ------------------------------------------------------------------ -/
/- Spec-modelled batched transfer engine (spec section 4.4) -/
/- ------------------------------------------------------------------ -/

/-- Fuel-driven chunking; `l.length` fuel suffices for a positive chunk
    size. -/
def chunksF (k : Nat) : Nat → List Nat → List (List Nat)
  | _, [] => []
  | 0, _ => []
  | fuel + 1, l => l.take k :: chunksF k fuel (l.drop k)

/-- Partition written from the spec's words (section 4.4 step 1):
    "Partition the full identifier list for the mailbox into fixed-size
    batches (default 100)". -/
def spec_batches (k : Nat) (l : List Nat) : List (List Nat) :=
  chunksF k l.length l

/-- One batch of the transfer engine written from the spec's words
    (section 4.4 steps 2-6): fetch flags and body per identifier, select
    the destination mailbox once per batch, append each successfully
    fetched message, and log the per-batch count. -/
def specBatchTrace (env : Env) (mbox : String) (b : List Nat) : List Event :=
  (b.map fun n => [Event.fetchFlags n, Event.fetchBody n]).flatten
    ++ Event.selectDst mbox ::
      ((b.filter fun n => (env.fetchFlags n).isSome && (env.fetchBody n).isSome).map
          fun n => Event.append mbox n)
    ++ [Event.logBatchCount
          (b.filter fun n => (env.fetchFlags n).isSome && (env.fetchBody n).isSome).length]

/-- The batched engine written from the spec's words: process the batches
    of `spec_batches 100` independently, in order. -/
def specBatchedTransfer (env : Env) (mbox : String) (ids : List Nat) : List Event :=
  ((spec_batches 100 ids).map (specBatchTrace env mbox)).flatten

/- ------------------------------------------------------------------ -/
/- Concrete environments used to evaluate the theorems -/
/- ------------------------------------------------------------------ -/

/-- An environment in which every per-message call succeeds. -/
def okEnv : Env where
  fetchFlags _ := some ["\\Seen".toList]
  fetchBody _ := some "body".toList
  appendExc _ := false
  dstSelectExc _ := false
  dstSearchExc _ := false
  dstSearchRes _ := some [1]
  storeExc _ := false

/-- `okEnv` with source flags `\Seen \Flagged` and three messages already
    in the destination mailbox. -/
def env2w : Env :=
  { okEnv with
    fetchFlags := fun _ => some ["\\Seen".toList, "\\Flagged".toList]
    dstSearchRes := fun _ => some [1, 2, 3] }

/-- `okEnv` except that fetching the body of message 42 fails. -/
def env5w : Env :=
  { okEnv with fetchBody := fun n => if n = 42 then none else some "body".toList }

/-- A mailbox environment in which everything succeeds (first selection
    variant accepted, empty mailbox). -/
def mOk : MEnv where
  env := okEnv
  sel _ := SelectRes.ok
  createExc := false
  subscribeExc := false
  createStatus := CmdStatus.ok
  subscribeStatus := CmdStatus.ok
  searchRes := some []

/-- A mailbox environment whose server rejects every selection variant
    with a non-OK status. -/
def mAllBad : MEnv := { mOk with sel := fun _ => SelectRes.bad }

/-- A source server accepting exactly the string `INBOX.Archive` (the third
    variant for the canonical name `Archive`). -/
def mThird : MEnv :=
  { mOk with
    sel := fun v => if v = "INBOX.Archive" then SelectRes.ok else SelectRes.bad
    searchRes := some [5] }

/-- A destination on which the mailbox already exists: `create` and
    `subscribe` complete without raising but return a NO status. -/
def mExists : MEnv :=
  { mOk with createStatus := CmdStatus.no, subscribeStatus := CmdStatus.no }

/-- A job whose connections and body succeed (empty mailbox list) but whose
    source `logout()` raises. -/
def jC7 : JobEnv where
  srcConnOk := true
  srcLoginOk := true
  dstConnOk := true
  dstLoginOk := true
  listRes := some []
  menv _ := mOk
  srcLogoutExc := true
  dstLogoutExc := false

/-- The same job with a well-behaved source logout. -/
def jW7 : JobEnv := { jC7 with srcLogoutExc := false }

/-- A well-formed job line: 3 source fields, 3 destination fields. -/
def goodLine : List Char := "src,alice,pw;dst,bob,pw2".toList

/-- A malformed job line: the source side has only 2 fields. -/
def badLine : List Char := "src,alice;dst,bob,pw2".toList

/- ================================================================== -/
/- Theorems -/
/- ================================================================== -/

/-- The message loop is a flat concatenation of independent per-message
    traces. -/
theorem transfer_join (env : Env) (mbox : String) (ids : List Nat) :
    transferMessages env mbox ids = (ids.map (processMessage env mbox)).flatten := by
  induction ids with
  | nil => rfl
  | cons n rest ih => simp [transferMessages, ih]

/-- Membership in the transfer trace is membership in one message's trace. -/
theorem mem_transfer {env : Env} {mbox : String} {ids : List Nat} {e : Event} :
    e ∈ transferMessages env mbox ids ↔ ∃ n ∈ ids, e ∈ processMessage env mbox n := by
  rw [transfer_join]
  simp

/-- Every event of one message's trace is one of the eleven per-message
    event forms, all tagged with that message's identifier (or the
    destination mailbox name). -/
theorem processMessage_shape (env : Env) (mbox : String) (n : Nat) :
    ∀ e ∈ processMessage env mbox n,
      e = Event.fetchFlags n ∨ e = Event.logFlagsFail n ∨ e = Event.fetchHeader n
      ∨ e = Event.fetchBody n ∨ e = Event.logBodyFail n ∨ e = Event.append mbox n
      ∨ e = Event.selectDst mbox ∨ e = Event.searchDst
      ∨ (∃ d lit, e = Event.store d lit) ∨ e = Event.logMigrated n
      ∨ e = Event.logSaveFail n := by
  intro e he
  unfold processMessage saveMessage at he
  repeat' split at he
  all_goals simp_all
  all_goals
    first
      | tauto
      | (rcases he with h | h | h | h | h | h | h | h <;>
          first
            | tauto
            | (exact Or.inr <| Or.inr <| Or.inr <| Or.inr <| Or.inr <| Or.inr <|
                Or.inr <| Or.inr <| Or.inl ⟨_, _, h⟩))

/-- If the server accepts none of the variants, the selector yields no
    variant. -/
theorem trySelect_none {sel : String → SelectRes} :
    ∀ {vs : List String}, (∀ v ∈ vs, sel v ≠ SelectRes.ok) →
      (trySelect sel vs).2 = none := by
  intro vs
  induction vs with
  | nil => intro _; rfl
  | cons v vs ih =>
    intro h
    cases hv : sel v with
    | ok => exact absurd hv (h v (by simp))
    | bad =>
      simp only [trySelect, hv]
      exact ih fun u hu => h u (by simp [hu])
    | exc =>
      simp only [trySelect, hv]
      exact ih fun u hu => h u (by simp [hu])

/-- Every event of the selection attempts is an attempt, an exception log,
    or a success log for one of the tried variants. -/
theorem trySelect_shape (sel : String → SelectRes) :
    ∀ (vs : List String) (e : Event), e ∈ (trySelect sel vs).1 →
      ∃ v ∈ vs, e = Event.selectSrcTry v ∨ e = Event.logSelectExc v
        ∨ e = Event.logSelected v := by
  intro vs
  induction vs with
  | nil => intro e he; simp [trySelect] at he
  | cons v vs ih =>
    intro e he
    cases hv : sel v <;> simp only [trySelect, hv, List.mem_cons] at he
    case ok =>
      rcases he with h | h
      · exact ⟨v, by simp, Or.inl h⟩
      · simp at h
        exact ⟨v, by simp, Or.inr (Or.inr h)⟩
    case bad =>
      rcases he with h | h
      · exact ⟨v, by simp, Or.inl h⟩
      · obtain ⟨u, hu, hor⟩ := ih e h
        exact ⟨u, by simp [hu], hor⟩
    case exc =>
      rcases he with h | h | h
      · exact ⟨v, by simp, Or.inl h⟩
      · exact ⟨v, by simp, Or.inr (Or.inl h)⟩
      · obtain ⟨u, hu, hor⟩ := ih e h
        exact ⟨u, by simp [hu], hor⟩

/-- Every event of the provisioner concerns the provisioned name. -/
theorem create_mailbox_shape (ce se : Bool) (cs ss : CmdStatus) (name : String) :
    ∀ e ∈ create_mailbox ce se cs ss name,
      e = Event.createDst name ∨ e = Event.subscribeDst name
      ∨ e = Event.logMailboxCreated name ∨ e = Event.logCreateFail name := by
  intro e he
  unfold create_mailbox at he
  cases ce <;> cases se <;> simp_all <;> tauto

/-- Every event of the transfer part is the source search, its failure log,
    the completion log, or an event of one message of the searched ids. -/
theorem transferPart_shape (m : MEnv) (name : String) :
    ∀ e ∈ transferPart m name,
      e = Event.searchSrc name ∨ e = Event.logSearchFail name
      ∨ e = Event.logMailboxDone name
      ∨ ∃ ids, m.searchRes = some ids ∧ ∃ n ∈ ids, e ∈ processMessage m.env name n := by
  intro e he
  unfold transferPart at he
  cases hs : m.searchRes <;> rw [hs] at he <;> simp only [List.mem_cons] at he
  case none => simp at he; tauto
  case some ids =>
    rcases he with h | h
    · exact Or.inl h
    rcases List.mem_append.mp h with h | h
    · exact Or.inr <| Or.inr <| Or.inr
        ⟨ids, rfl, mem_transfer.mp h⟩
    · simp at h
      exact Or.inr <| Or.inr <| Or.inl h

/-- When some variant is accepted, a mailbox is processed as selection
    events, then provisioning, then the transfer part. -/
theorem processMailbox_selected {m : MEnv} {name : String}
    (h : (trySelect m.sel (selectVariants name)).2.isSome) :
    processMailbox m name =
      (trySelect m.sel (selectVariants name)).1
        ++ create_mailbox m.createExc m.subscribeExc m.createStatus m.subscribeStatus name
        ++ transferPart m name := by
  unfold processMailbox
  obtain ⟨v, hv⟩ := Option.isSome_iff_exists.mp h
  rw [hv]

/-- When no variant is accepted, a mailbox is processed as selection events
    followed by the skip log only. -/
theorem processMailbox_skipped {m : MEnv} {name : String}
    (h : (trySelect m.sel (selectVariants name)).2 = none) :
    processMailbox m name =
      (trySelect m.sel (selectVariants name)).1 ++ [Event.logSkipMailbox name] := by
  unfold processMailbox
  rw [h]

/-- Length of a quoted variant. -/
theorem quoted_length (s : String) : (quoted s).length = s.length + 2 := by
  have h1 : ("\"" : String).length = 1 := rfl
  simp [quoted, String.length_append, h1]
  omega

/-- Length of an INBOX-prefixed variant. -/
theorem inboxed_length (s : String) : (inboxed s).length = s.length + 6 := by
  have h1 : ("INBOX." : String).length = 6 := rfl
  simp [inboxed, String.length_append, h1]
  omega

/-- The fourth selection variant differs from the first three. -/
theorem fourth_variant_ne (s : String) :
    quoted (inboxed s) ≠ s ∧ quoted (inboxed s) ≠ quoted s
      ∧ quoted (inboxed s) ≠ inboxed s := by
  refine ⟨fun h => ?_, fun h => ?_, fun h => ?_⟩ <;>
    · have := congrArg String.length h
      simp only [quoted_length, inboxed_length] at this
      omega

/-- A takeWhile that stops exactly at the first appended element. -/
theorem takeWhile_append_cons {α} (p : α → Bool) (xs : List α) (y : α) (ys : List α)
    (hx : ∀ x ∈ xs, p x = true) (hy : p y = false) :
    (xs ++ y :: ys).takeWhile p = xs := by
  induction xs with
  | nil => simp [List.takeWhile_cons, hy]
  | cons a as ih =>
    simp only [List.cons_append, List.takeWhile_cons, hx a (by simp), if_true]
    rw [ih fun x hx' => hx x (by simp [hx'])]

/-- The regex branch on a line ending in a nonempty quote-free quoted
    segment returns exactly that segment. -/
theorem quotedTail_concat (pl cl : List Char) (hc : cl ≠ []) (hq : dqc ∉ cl) :
    quotedTail (pl ++ dqc :: cl ++ [dqc]) = some cl := by
  have hrev : (pl ++ dqc :: cl ++ [dqc]).reverse
      = dqc :: (cl.reverse ++ dqc :: pl.reverse) := by
    simp
  have htake : (cl.reverse ++ dqc :: pl.reverse).takeWhile (fun ch => ch != dqc)
      = cl.reverse := by
    apply takeWhile_append_cons
    · intro x hx
      rw [List.mem_reverse] at hx
      simp only [bne_iff_ne, ne_eq, decide_eq_true_eq]
      exact fun h => hq (h ▸ hx)
    · simp
  unfold quotedTail
  rw [hrev]
  simp only [htake, if_pos rfl]
  rw [List.drop_left]
  have hne : cl.reverse ≠ [] := by simpa using hc
  simp [hne]

/-- On a line containing no double quote, the regex branch fails. -/
theorem quotedTail_none_of_no_quote {l : List Char} (h : dqc ∉ l) :
    quotedTail l = none := by
  unfold quotedTail
  cases hrev : l.reverse with
  | nil => rfl
  | cons c0 rest =>
    have hc0 : c0 ∈ l := by
      rw [← List.mem_reverse, hrev]
      simp
    have hne : ¬c0 = dqc := fun hh => h (hh ▸ hc0)
    simp [hne]

/-- If the regex branch succeeds, the line contains a double quote. -/
theorem quotedTail_mem {l : List Char} {c : List Char}
    (h : quotedTail l = some c) : dqc ∈ l := by
  unfold quotedTail at h
  cases hrev : l.reverse with
  | nil => rw [hrev] at h; simp at h
  | cons c0 rest =>
    rw [hrev] at h
    by_cases hc0 : c0 = dqc
    · subst hc0
      rw [← List.mem_reverse, hrev]
      simp
    · simp [hc0] at h

/-- The token list is empty exactly when the line is all whitespace. -/
theorem wsTokens_nil_iff (l : List Char) :
    wsTokens l = [] ↔ ∀ c ∈ l, c.isWhitespace := by
  cases l with
  | nil => simp [wsTokens, wsTokensAux]
  | cons a as =>
    show wsTokensAux (as.length + 1) (a :: as) = [] ↔ _
    cases hd : (a :: as).dropWhile Char.isWhitespace with
    | nil =>
      unfold wsTokensAux
      rw [hd]
      simpa using List.dropWhile_eq_nil_iff.mp hd
    | cons c cs =>
      unfold wsTokensAux
      rw [hd]
      constructor
      · intro hcontra
        simp at hcontra
      · intro hall
        have h0 : (a :: as).dropWhile Char.isWhitespace = [] :=
          List.dropWhile_eq_nil_iff.mpr hall
        rw [hd] at h0
        simp at h0

/-- C4: a raw listing line ending in a nonempty quoted segment resolves to
    exactly the content between the final pair of double quotes, and a
    listing line containing no double quote resolves to the last
    whitespace-delimited token; in particular the spec's two example lines
    resolve to `Sent Items` and `INBOX`. -/
theorem C4_resolver (p c s : String) (hc : c.toList ≠ []) (hcq : dqc ∉ c.toList)
    (hsq : dqc ∉ s.toList) (hne : wsTokens s.toList ≠ []) :
    get_mailbox_name (p ++ "\"" ++ c ++ "\"") = some c
    ∧ get_mailbox_name s = some (String.mk ((wsTokens s.toList).getLast hne))
    ∧ get_mailbox_name "(\\HasNoChildren) \".\" \"Sent Items\"" = some "Sent Items"
    ∧ get_mailbox_name "(\\HasNoChildren) \".\" INBOX" = some "INBOX" := by
  refine ⟨?_, ?_, by decide, by decide⟩
  · have hq : ("\"" : String).data = [dqc] := by decide
    have hlist : (p ++ "\"" ++ c ++ "\"").toList = p.toList ++ dqc :: c.toList ++ [dqc] := by
      show (p ++ "\"" ++ c ++ "\"").data = p.data ++ dqc :: c.data ++ [dqc]
      rw [String.data_append, String.data_append, String.data_append, hq]
      simp
    unfold get_mailbox_name
    rw [hlist, quotedTail_concat _ _ hc hcq]
    rfl
  · unfold get_mailbox_name
    rw [quotedTail_none_of_no_quote hsq, List.getLast?_eq_getLast_of_ne_nil hne]
    rfl

/-- Witness for C4: the general statements evaluated at concrete lines. -/
theorem C4_resolver_witness :
    get_mailbox_name "x \"Sent Items\"" = some "Sent Items"
    ∧ get_mailbox_name "(HasNoChildren) . INBOX" = some "INBOX" := by
  have h := C4_resolver "x " "Sent Items" "(HasNoChildren) . INBOX"
    (by decide) (by decide) (by decide) (by decide)
  refine ⟨?_, ?_⟩
  · have heq : ("x " ++ "\"" ++ "Sent Items" ++ "\"") = "x \"Sent Items\"" := by decide
    rw [← heq]
    exact h.1
  · rw [h.2.1]
    decide

/-- C10: the resolver returns a value exactly on inputs containing at least
    one non-whitespace character (a line ending in a nonempty quoted segment
    contains a quote character, hence is covered); on an empty or
    whitespace-only string it evaluates `split()[-1]` on an empty token
    list, raising `IndexError` (modelled by `none`). -/
theorem C10_partiality (s : String) :
    (get_mailbox_name s).isSome ↔ ∃ ch ∈ s.toList, ¬ch.isWhitespace := by
  unfold get_mailbox_name
  cases hq : quotedTail s.toList with
  | some c =>
    simp only [Option.isSome_some, true_iff]
    exact ⟨dqc, quotedTail_mem hq, by decide⟩
  | none =>
    constructor
    · intro h
      by_contra hnone
      push_neg at hnone
      have h0 : wsTokens s.data = [] := (wsTokens_nil_iff _).mpr hnone
      simp [h0] at h
    · rintro ⟨ch, hch, hws⟩
      have hne : wsTokens s.toList ≠ [] := by
        intro h0
        exact hws ((wsTokens_nil_iff _).mp h0 ch hch)
      rw [List.getLast?_eq_getLast_of_ne_nil hne]
      simp

/-- Witness for C10: empty and whitespace-only inputs yield no name; a
    plain name resolves. -/
theorem C10_partiality_witness :
    get_mailbox_name "" = none ∧ get_mailbox_name " \t " = none
    ∧ (get_mailbox_name "INBOX").isSome := by
  refine ⟨?_, ?_, ?_⟩
  · refine Option.not_isSome_iff_eq_none.mp fun hs => ?_
    rcases (C10_partiality "").mp hs with ⟨ch, hch, _⟩
    simp at hch
  · refine Option.not_isSome_iff_eq_none.mp fun hs => ?_
    rcases (C10_partiality " \t ").mp hs with ⟨ch, hch, hws⟩
    have : ch = ' ' ∨ ch = '\t' ∨ ch = ' ' := by
      simpa using hch
    rcases this with rfl | rfl | rfl <;> exact hws (by decide)
  · exact (C10_partiality "INBOX").mpr ⟨'I', by decide, by decide⟩

/-- No provisioning event ever occurs inside a message's trace. -/
theorem createDst_not_in_processMessage (env : Env) (mbox : String) (n : Nat)
    (nm : String) : Event.createDst nm ∉ processMessage env mbox n := by
  intro h
  rcases processMessage_shape env mbox n _ h with
    h' | h' | h' | h' | h' | h' | h' | h' | ⟨d, lit, h'⟩ | h' | h' <;> simp at h'

/-- An append event inside a message's trace carries the destination
    mailbox name and that message's identifier. -/
theorem append_mem_processMessage {env : Env} {mbox : String} {n : Nat}
    {mb : String} {k : Nat}
    (h : Event.append mb k ∈ processMessage env mbox n) : mb = mbox ∧ k = n := by
  rcases processMessage_shape env mbox n _ h with
    h' | h' | h' | h' | h' | h' | h' | h' | ⟨d, lit, h'⟩ | h' | h' <;> simp_all

/-- A failing flag fetch reduces a message's trace to the fetch and its
    error log (lines 129-132). -/
theorem processMessage_flags_fail {env : Env} {mbox : String} {n : Nat}
    (h : env.fetchFlags n = none) :
    processMessage env mbox n = [Event.fetchFlags n, Event.logFlagsFail n] := by
  unfold processMessage
  rw [h]

/-- A failing body fetch reduces a message's trace to the three fetches and
    the body error log (lines 150-153). -/
theorem processMessage_body_fail {env : Env} {mbox : String} {n : Nat}
    {fl : List (List Char)} (hf : env.fetchFlags n = some fl)
    (hb : env.fetchBody n = none) :
    processMessage env mbox n
      = [Event.fetchFlags n, Event.fetchHeader n, Event.fetchBody n,
         Event.logBodyFail n] := by
  unfold processMessage
  rw [hf, hb]

/-- A message whose fetches succeed reaches the destination append. -/
theorem append_mem_of_ok {env : Env} {mbox : String} {n : Nat}
    {fl : List (List Char)} {b : List Char} (hf : env.fetchFlags n = some fl)
    (hb : env.fetchBody n = some b) :
    Event.append mbox n ∈ processMessage env mbox n := by
  unfold processMessage
  rw [hf, hb]
  simp [saveMessage]

/-- A message whose fetches succeed and whose destination calls raise no
    exception is logged as migrated, whatever the destination search
    returns. -/
theorem logMigrated_mem_of_ok {env : Env} {mbox : String} {n : Nat}
    {fl : List (List Char)} {b : List Char} (hf : env.fetchFlags n = some fl)
    (hb : env.fetchBody n = some b) (ha : env.appendExc n = false)
    (h1 : env.dstSelectExc n = false) (h2 : env.dstSearchExc n = false)
    (h3 : env.storeExc n = false) :
    Event.logMigrated n ∈ processMessage env mbox n := by
  unfold processMessage
  rw [hf, hb]
  unfold saveMessage
  rcases hs : env.dstSearchRes n with _ | ls
  · simp [ha, h1, h2, hs]
  · cases ls <;> simp [ha, h1, h2, h3, hs]

/-- C3: the Selector tries the four naming variants in the fixed order
    bare, quoted, INBOX-prefixed, quoted INBOX-prefixed and stops at the
    first accepted variant; when only the third variant is accepted, the
    selector returns `INBOX.name`, the fourth variant is never attempted,
    and both destination provisioning and every append still use the
    canonical unprefixed name. -/
theorem C3_selector (m : MEnv) (name : String)
    (h1 : m.sel name ≠ SelectRes.ok) (h2 : m.sel (quoted name) ≠ SelectRes.ok)
    (h3 : m.sel (inboxed name) = SelectRes.ok) :
    selectVariants name = [name, quoted name, inboxed name, quoted (inboxed name)]
    ∧ (trySelect m.sel (selectVariants name)).2 = some (inboxed name)
    ∧ Event.selectSrcTry (quoted (inboxed name)) ∉ (trySelect m.sel (selectVariants name)).1
    ∧ Event.createDst name ∈ processMailbox m name
    ∧ (∀ nm, Event.createDst nm ∈ processMailbox m name → nm = name)
    ∧ (∀ mb k, Event.append mb k ∈ processMailbox m name → mb = name) := by
  obtain ⟨n1, n2, n3⟩ := fourth_variant_ne name
  have hsel : (trySelect m.sel (selectVariants name)).2 = some (inboxed name)
      ∧ Event.selectSrcTry (quoted (inboxed name))
          ∉ (trySelect m.sel (selectVariants name)).1 := by
    cases hs1 : m.sel name with
    | ok => exact absurd hs1 h1
    | bad =>
      cases hs2 : m.sel (quoted name) with
      | ok => exact absurd hs2 h2
      | bad =>
        constructor <;> simp [trySelect, selectVariants, hs1, hs2, h3, n1, n2, n3]
      | exc =>
        constructor <;> simp [trySelect, selectVariants, hs1, hs2, h3, n1, n2, n3]
    | exc =>
      cases hs2 : m.sel (quoted name) with
      | ok => exact absurd hs2 h2
      | bad =>
        constructor <;> simp [trySelect, selectVariants, hs1, hs2, h3, n1, n2, n3]
      | exc =>
        constructor <;> simp [trySelect, selectVariants, hs1, hs2, h3, n1, n2, n3]
  have hps : processMailbox m name =
      (trySelect m.sel (selectVariants name)).1
        ++ create_mailbox m.createExc m.subscribeExc m.createStatus m.subscribeStatus name
        ++ transferPart m name :=
    processMailbox_selected (by rw [hsel.1]; rfl)
  refine ⟨rfl, hsel.1, hsel.2, ?_, ?_, ?_⟩
  · rw [hps]
    refine List.mem_append.mpr (Or.inl (List.mem_append.mpr (Or.inr ?_)))
    simp [create_mailbox]
  · intro nm hmem
    rw [hps] at hmem
    rcases List.mem_append.mp hmem with hmem | hmem
    · rcases List.mem_append.mp hmem with hmem | hmem
      · obtain ⟨v, _, h' | h' | h'⟩ := trySelect_shape m.sel _ _ hmem <;> simp at h'
      · rcases create_mailbox_shape _ _ _ _ _ _ hmem with h' | h' | h' | h' <;> simp at h'
        exact h'
    · rcases transferPart_shape _ _ _ hmem with h' | h' | h' | ⟨ids, _, k, _, hk⟩
      · simp at h'
      · simp at h'
      · simp at h'
      · exact absurd hk (createDst_not_in_processMessage _ _ _ _)
  · intro mb k hmem
    rw [hps] at hmem
    rcases List.mem_append.mp hmem with hmem | hmem
    · rcases List.mem_append.mp hmem with hmem | hmem
      · obtain ⟨v, _, h' | h' | h'⟩ := trySelect_shape m.sel _ _ hmem <;> simp at h'
      · rcases create_mailbox_shape _ _ _ _ _ _ hmem with h' | h' | h' | h' <;> simp at h'
    · rcases transferPart_shape _ _ _ hmem with h' | h' | h' | ⟨ids, _, j, _, hj⟩
      · simp at h'
      · simp at h'
      · simp at h'
      · exact (append_mem_processMessage hj).1

/-- Witness for C3: a server accepting exactly `INBOX.Archive`. -/
theorem C3_selector_witness :
    (trySelect mThird.sel (selectVariants "Archive")).2 = some (inboxed "Archive")
    ∧ Event.createDst "Archive" ∈ processMailbox mThird "Archive" := by
  have h := C3_selector mThird "Archive" (by decide) (by decide) (by decide)
  exact ⟨h.2.1, h.2.2.2.1⟩

/-- C6: when the server accepts none of the four naming variants, the
    mailbox is skipped entirely after the attempt events and the skip log:
    no provisioning (create/subscribe), no append, no message fetch occurs
    for it, and the mailbox loop continues with the next raw entry without
    aborting. -/
theorem C6_skip (m : MEnv) (name raw : String) (menv : String → MEnv)
    (rest : List String)
    (h : ∀ v ∈ selectVariants name, m.sel v ≠ SelectRes.ok)
    (hraw : get_mailbox_name raw = some name) (hm : menv name = m) :
    processMailbox m name
      = (trySelect m.sel (selectVariants name)).1 ++ [Event.logSkipMailbox name]
    ∧ (∀ nm, Event.createDst nm ∉ processMailbox m name)
    ∧ (∀ nm, Event.subscribeDst nm ∉ processMailbox m name)
    ∧ (∀ mb k, Event.append mb k ∉ processMailbox m name)
    ∧ (∀ k, Event.fetchFlags k ∉ processMailbox m name)
    ∧ (processMailboxes menv (raw :: rest)).1
        = processMailbox m name ++ (processMailboxes menv rest).1
    ∧ (processMailboxes menv (raw :: rest)).2 = (processMailboxes menv rest).2 := by
  have hnone := trySelect_none h
  have hskip := processMailbox_skipped hnone
  have habs : ∀ e : Event, e ∈ processMailbox m name →
      (∃ v ∈ selectVariants name,
        e = Event.selectSrcTry v ∨ e = Event.logSelectExc v ∨ e = Event.logSelected v)
      ∨ e = Event.logSkipMailbox name := by
    intro e he
    rw [hskip] at he
    rcases List.mem_append.mp he with he | he
    · exact Or.inl (trySelect_shape _ _ _ he)
    · simp at he
      exact Or.inr he
  refine ⟨hskip, ?_, ?_, ?_, ?_, ?_, ?_⟩
  · intro nm hmem
    rcases habs _ hmem with ⟨v, _, h' | h' | h'⟩ | h' <;> simp at h'
  · intro nm hmem
    rcases habs _ hmem with ⟨v, _, h' | h' | h'⟩ | h' <;> simp at h'
  · intro mb k hmem
    rcases habs _ hmem with ⟨v, _, h' | h' | h'⟩ | h' <;> simp at h'
  · intro k hmem
    rcases habs _ hmem with ⟨v, _, h' | h' | h'⟩ | h' <;> simp at h'
  · rw [processMailboxes.eq_def]
    simp only [hraw, hm]
  · rw [processMailboxes.eq_def]
    simp only [hraw]

/-- Witness for C6: a server rejecting every variant of `INBOX`. -/
theorem C6_skip_witness :
    processMailbox mAllBad "INBOX"
      = [Event.selectSrcTry "INBOX", Event.selectSrcTry (quoted "INBOX"),
         Event.selectSrcTry (inboxed "INBOX"),
         Event.selectSrcTry (quoted (inboxed "INBOX")),
         Event.logSkipMailbox "INBOX"]
    ∧ (processMailboxes (fun _ => mAllBad) ["INBOX", "Sent"]).1
        = processMailbox mAllBad "INBOX"
          ++ (processMailboxes (fun _ => mAllBad) ["Sent"]).1 := by
  have h := C6_skip mAllBad "INBOX" "INBOX" (fun _ => mAllBad) ["Sent"]
    (by decide) (by decide) rfl
  refine ⟨?_, h.2.2.2.2.2.1⟩
  rw [h.1]
  decide

/-- No provisioning failure log ever occurs inside a message's trace. -/
theorem logCreateFail_not_in_processMessage (env : Env) (mbox : String) (n : Nat)
    (nm : String) : Event.logCreateFail nm ∉ processMessage env mbox n := by
  intro h
  rcases processMessage_shape env mbox n _ h with
    h' | h' | h' | h' | h' | h' | h' | h' | ⟨d, lit, h'⟩ | h' | h' <;> simp at h'

/-- C9 counterexample: imaplib reports "already exists" as a returned NO
    status, not as a raised `IMAP4.error`; since lines 66-67 discard the
    returned statuses, nothing is caught or logged for it — the mailbox
    trace for a mailbox whose create and subscribe both return NO contains
    the success log line and no failure log, refuting "any failure
    (including an 'already exists' error) is caught and logged". -/
theorem C9_counterexample :
    create_mailbox false false CmdStatus.no CmdStatus.no "Sent"
      = [Event.createDst "Sent", Event.subscribeDst "Sent",
         Event.logMailboxCreated "Sent"]
    ∧ Event.logCreateFail "Sent" ∉ processMailbox mExists "Sent"
    ∧ Event.logMailboxCreated "Sent" ∈ processMailbox mExists "Sent"
    ∧ Event.searchSrc "Sent" ∈ processMailbox mExists "Sent" := by
  decide

/-- C9 amended: a create or subscribe failure raised as
    `imaplib.IMAP4.error` (BAD response or aborted connection) is caught
    and logged as non-fatal; a failure returned as a NO status — the way
    imaplib reports "already exists" — is silently ignored: the discarded
    statuses never reach the handler, no failure is logged, and the
    success line is printed.  In every case provisioning is non-fatal and
    the transfer part of the mailbox is exactly the same whatever the
    provisioning outcome was. -/
theorem C9_provisioning_amended (m : MEnv) (name : String) (ce se : Bool)
    (cs ss : CmdStatus)
    (h : ((trySelect m.sel (selectVariants name)).2).isSome) :
    processMailbox
        { m with
            createExc := ce, subscribeExc := se, createStatus := cs, subscribeStatus := ss }
        name
      = (trySelect m.sel (selectVariants name)).1
        ++ create_mailbox ce se cs ss name ++ transferPart m name
    ∧ (ce = true ∨ se = true →
        Event.logCreateFail name
          ∈ processMailbox
              { m with
                  createExc := ce, subscribeExc := se, createStatus := cs,
                  subscribeStatus := ss }
              name)
    ∧ (ce = false → se = false →
        create_mailbox ce se cs ss name
          = [Event.createDst name, Event.subscribeDst name,
             Event.logMailboxCreated name]
        ∧ Event.logCreateFail name
            ∉ processMailbox
                { m with
                    createExc := ce, subscribeExc := se, createStatus := cs,
                    subscribeStatus := ss }
                name) := by
  have h' : ((trySelect
      ({ m with
          createExc := ce, subscribeExc := se, createStatus := cs,
          subscribeStatus := ss } : MEnv).sel
      (selectVariants name)).2).isSome := h
  have hps := processMailbox_selected h'
  refine ⟨hps, ?_, ?_⟩
  · intro hor
    rw [hps]
    refine List.mem_append.mpr (Or.inl (List.mem_append.mpr (Or.inr ?_)))
    rcases hor with rfl | rfl
    · simp [create_mailbox]
    · cases ce <;> simp [create_mailbox]
  · intro hce hse
    subst hce
    subst hse
    refine ⟨rfl, ?_⟩
    rw [hps]
    intro hmem
    rcases List.mem_append.mp hmem with hmem | hmem
    · rcases List.mem_append.mp hmem with hmem | hmem
      · obtain ⟨v, _, hv | hv | hv⟩ := trySelect_shape _ _ _ hmem <;> simp at hv
      · simp [create_mailbox] at hmem
    · rcases transferPart_shape _ _ _ hmem with hv | hv | hv | ⟨ids, _, k, _, hk⟩
      · simp at hv
      · simp at hv
      · simp at hv
      · exact logCreateFail_not_in_processMessage _ _ _ _ hk

/-- Witness for C9 amended: a raising create is logged as a failure, while
    the NO-returning ("already exists") run logs no failure; the trace
    equality shows the transfer part is unaffected in both runs. -/
theorem C9_provisioning_amended_witness :
    Event.logCreateFail "Sent"
      ∈ processMailbox
          { mOk with
              createExc := true, subscribeExc := false, createStatus := CmdStatus.ok,
              subscribeStatus := CmdStatus.ok }
          "Sent"
    ∧ Event.logCreateFail "Sent"
        ∉ processMailbox
            { mOk with
                createExc := false, subscribeExc := false, createStatus := CmdStatus.no,
                subscribeStatus := CmdStatus.no }
            "Sent"
    ∧ processMailbox
          { mOk with
              createExc := false, subscribeExc := false, createStatus := CmdStatus.no,
              subscribeStatus := CmdStatus.no }
          "Sent"
        = (trySelect mOk.sel (selectVariants "Sent")).1
          ++ create_mailbox false false CmdStatus.no CmdStatus.no "Sent"
          ++ transferPart mOk "Sent" := by
  have h1 := C9_provisioning_amended mOk "Sent" true false CmdStatus.ok CmdStatus.ok
    (by decide)
  have h2 := C9_provisioning_amended mOk "Sent" false false CmdStatus.no CmdStatus.no
    (by decide)
  exact ⟨h1.2.1 (Or.inl rfl), (h2.2.2 rfl rfl).2, h2.1⟩

/-- C5: a failure fetching the flags or the body of one message is logged
    with that message's identifier and skips only that message: no append
    occurs for it, every other message whose fetches succeed is still
    appended (and, absent destination exceptions, logged as migrated), and
    the loop structure is untouched — the trace remains the concatenation
    of the per-message traces, so neither the pass nor the mailbox is
    aborted. -/
theorem C5_message_isolation (env : Env) (mbox : String) (ids : List Nat)
    (m : Nat) (hm : m ∈ ids) :
    (env.fetchFlags m = none →
        Event.logFlagsFail m ∈ transferMessages env mbox ids
        ∧ ∀ k, Event.append mbox k ∈ transferMessages env mbox ids → k ≠ m)
    ∧ (∀ fl, env.fetchFlags m = some fl → env.fetchBody m = none →
        Event.logBodyFail m ∈ transferMessages env mbox ids
        ∧ ∀ k, Event.append mbox k ∈ transferMessages env mbox ids → k ≠ m)
    ∧ (∀ n ∈ ids, ∀ fl b, env.fetchFlags n = some fl → env.fetchBody n = some b →
        Event.append mbox n ∈ transferMessages env mbox ids)
    ∧ (∀ n ∈ ids, ∀ fl b, env.fetchFlags n = some fl → env.fetchBody n = some b →
        env.appendExc n = false → env.dstSelectExc n = false →
        env.dstSearchExc n = false → env.storeExc n = false →
        Event.logMigrated n ∈ transferMessages env mbox ids)
    ∧ transferMessages env mbox ids = (ids.map (processMessage env mbox)).flatten := by
  refine ⟨?_, ?_, ?_, ?_, transfer_join env mbox ids⟩
  · intro hff
    constructor
    · exact mem_transfer.mpr ⟨m, hm, by rw [processMessage_flags_fail hff]; simp⟩
    · intro k hk heq
      subst heq
      obtain ⟨n, _, hpm⟩ := mem_transfer.mp hk
      obtain ⟨-, hkn⟩ := append_mem_processMessage hpm
      subst hkn
      rw [processMessage_flags_fail hff] at hpm
      simp at hpm
  · intro fl hf hbf
    constructor
    · exact mem_transfer.mpr ⟨m, hm, by rw [processMessage_body_fail hf hbf]; simp⟩
    · intro k hk heq
      subst heq
      obtain ⟨n, _, hpm⟩ := mem_transfer.mp hk
      obtain ⟨-, hkn⟩ := append_mem_processMessage hpm
      subst hkn
      rw [processMessage_body_fail hf hbf] at hpm
      simp at hpm
  · intro n hn fl b hf hb
    exact mem_transfer.mpr ⟨n, hn, append_mem_of_ok hf hb⟩
  · intro n hn fl b hf hb ha h1 h2 h3
    exact mem_transfer.mpr ⟨n, hn, logMigrated_mem_of_ok hf hb ha h1 h2 h3⟩

/-- Witness for C5: message 42's body fetch fails; 41 and 43 are still
    appended, 42 never is, and one error log names 42. -/
theorem C5_message_isolation_witness :
    Event.logBodyFail 42 ∈ transferMessages env5w "INBOX" [41, 42, 43]
    ∧ Event.append "INBOX" 41 ∈ transferMessages env5w "INBOX" [41, 42, 43]
    ∧ Event.append "INBOX" 43 ∈ transferMessages env5w "INBOX" [41, 42, 43]
    ∧ Event.append "INBOX" 42 ∉ transferMessages env5w "INBOX" [41, 42, 43] := by
  have h := C5_message_isolation env5w "INBOX" [41, 42, 43] 42 (by decide)
  have h2 := h.2.1 ["\\Seen".toList] rfl rfl
  exact ⟨h2.1, h.2.2.1 41 (by decide) _ _ rfl rfl,
    h.2.2.1 43 (by decide) _ _ rfl rfl, fun hmem => h2.2 42 hmem rfl⟩

/-- C2: migrating a message whose source flags are \Seen \Flagged performs
    a destination append followed (after the destination select and search)
    by a store whose flag literal is the parenthesized space-separated list
    containing both flag tokens; the bytes-repr artifacts (the `b'` prefix
    and the quotes) are stripped while the backslashes of the flag tokens
    survive. -/
theorem C2_flags (env : Env) (mbox : String) (n : Nat) (b : List Char)
    (ds : List Nat) (hds : ds ≠ [])
    (hf : env.fetchFlags n = some ["\\Seen".toList, "\\Flagged".toList])
    (hb : env.fetchBody n = some b)
    (ha : env.appendExc n = false) (h1 : env.dstSelectExc n = false)
    (h2 : env.dstSearchExc n = false) (hr : env.dstSearchRes n = some ds)
    (h3 : env.storeExc n = false) :
    processMessage env mbox n
      = [Event.fetchFlags n, Event.fetchHeader n, Event.fetchBody n,
         Event.append mbox n, Event.selectDst mbox, Event.searchDst,
         Event.store (ds.getLast hds)
           (storeLiteral ["\\Seen".toList, "\\Flagged".toList]),
         Event.logMigrated n]
    ∧ storeLiteral ["\\Seen".toList, "\\Flagged".toList]
        = "(" ++ String.intercalate " " ["\\Seen", "\\Flagged"] ++ ")"
    ∧ sqc ∉ (storeLiteral ["\\Seen".toList, "\\Flagged".toList]).toList
    ∧ bqc ∉ (storeLiteral ["\\Seen".toList, "\\Flagged".toList]).toList := by
  refine ⟨?_, by decide, by decide, by decide⟩
  cases ds with
  | nil => exact absurd rfl hds
  | cons d ds' =>
    unfold processMessage
    rw [hf, hb]
    unfold saveMessage
    rw [ha, h1, h2, hr, h3]
    simp

/-- Witness for C2 in a concrete environment: three messages already on the
    destination, flags applied by a store on id 3 with the exact literal. -/
theorem C2_flags_witness :
    processMessage env2w "INBOX" 7
      = [Event.fetchFlags 7, Event.fetchHeader 7, Event.fetchBody 7,
         Event.append "INBOX" 7, Event.selectDst "INBOX", Event.searchDst,
         Event.store 3 "(\\Seen \\Flagged)", Event.logMigrated 7] := by
  have h := C2_flags env2w "INBOX" 7 "body".toList [1, 2, 3] (by decide)
    rfl rfl rfl rfl rfl rfl rfl
  rw [h.1]
  decide

/-- C7 counterexample: a run whose source logout raises exits through the
    finally block without ever attempting the destination logout, refuting
    "both the source and the destination connections are attempted to be
    closed" on this exit path. -/
theorem C7_counterexample :
    Event.logoutSrc ∈ migrate_emails jC7
    ∧ Event.logoutDst ∉ migrate_emails jC7 := by
  decide

/-- C7 amended: on every exit the finally block runs and swallows close
    failures; the source logout is attempted whenever the source connection
    was established; the destination logout is attempted only when both
    connections were established and the source logout did not raise — a
    raising source logout skips it. -/
theorem C7_amended (j : JobEnv) :
    migrate_emails j = jobBody j ++ finallyEvents j
    ∧ (j.srcConnOk = true → Event.logoutSrc ∈ migrate_emails j)
    ∧ (j.srcConnOk = true → j.srcLogoutExc = false → dstBound j = true →
        Event.logoutDst ∈ migrate_emails j)
    ∧ (j.srcLogoutExc = true → Event.logoutDst ∉ finallyEvents j)
    ∧ (j.srcConnOk = false → finallyEvents j = []) := by
  refine ⟨rfl, ?_, ?_, ?_, ?_⟩
  · intro h
    refine List.mem_append.mpr (Or.inr ?_)
    simp [finallyEvents, h]
  · intro h hl hd
    refine List.mem_append.mpr (Or.inr ?_)
    simp [finallyEvents, h, hl, hd]
  · intro hl
    unfold finallyEvents
    cases hc : j.srcConnOk <;> simp [hl]
  · intro h
    simp [finallyEvents, h]

/-- Witness for C7 amended: with both connections up and a well-behaved
    source logout, both logouts are attempted. -/
theorem C7_amended_witness :
    Event.logoutSrc ∈ migrate_emails jW7 ∧ Event.logoutDst ∈ migrate_emails jW7 := by
  have h := C7_amended jW7
  exact ⟨h.2.1 rfl, h.2.2.1 rfl rfl rfl⟩

/-- C8: the process exits nonzero exactly when the job list cannot be
    loaded or validated; the exit status never depends on what happens
    inside the jobs; a config failure produces no network activity at all;
    and a file containing a malformed job entry (one that does not split
    into two sides of exactly 3 comma fields) exits 1 with an empty trace
    wherever the entry sits in the file. -/
theorem C8_exit (file : Option (List (List Char))) (j j' : Nat → JobEnv)
    (pre post : List (List Char)) (l : List Char)
    (hd : dbgPref.isPrefixOf (stripWs l) = false)
    (hb : parseJobLine (stripWs l) = none) :
    ((main_run file j).1 ≠ 0 ↔ read_config_file file = none)
    ∧ (main_run file j).1 = (main_run file j').1
    ∧ (read_config_file file = none → main_run file j = (1, []))
    ∧ main_run (some (pre ++ l :: post)) j = (1, []) := by
  have hbad : ∀ (d : Bool) (acc : List (JobSide × JobSide)),
      readLines d acc (pre ++ l :: post) = none := by
    induction pre with
    | nil =>
      intro d acc
      simp [readLines, hd, hb]
    | cons x xs ih =>
      intro d acc
      rw [List.cons_append, readLines.eq_def]
      by_cases hx : dbgPref.isPrefixOf (stripWs x) = true
      · simp only [hx, if_true]
        exact ih _ _
      · rw [Bool.not_eq_true] at hx
        simp only [hx, Bool.false_eq_true, if_false]
        cases hp : parseJobLine (stripWs x)
        · simp
        · simp only []
          exact ih _ _
  refine ⟨?_, ?_, ?_, ?_⟩
  · cases hcf : read_config_file file with
    | none => simp [main_run, hcf]
    | some v =>
      obtain ⟨b, ms⟩ := v
      simp [main_run, hcf]
  · cases hcf : read_config_file file with
    | none => simp [main_run, hcf]
    | some v =>
      obtain ⟨b, ms⟩ := v
      simp [main_run, hcf]
  · intro h
    simp [main_run, h]
  · have hnone : read_config_file (some (pre ++ l :: post)) = none := hbad false []
    simp [main_run, hnone]

/-- Witness for C8: a file whose second entry has a 2-field source side
    exits 1 with no network activity; a well-formed file exits 0. -/
theorem C8_exit_witness :
    main_run (some [goodLine, badLine]) (fun _ => jW7) = (1, [])
    ∧ (main_run (some [goodLine]) (fun _ => jW7)).1 = 0 := by
  have h := C8_exit (some [goodLine, badLine]) (fun _ => jW7) (fun _ => jW7)
    [goodLine] [] badLine (by decide) (by decide)
  refine ⟨by simpa using h.2.2.2, ?_⟩
  have h1 := (C8_exit (some [goodLine]) (fun _ => jW7) (fun _ => jW7)
    [goodLine] [] badLine (by decide) (by decide)).1
  have hns : ¬read_config_file (some [goodLine]) = none := by decide
  by_contra hc
  exact hns (h1.mp hc)

/-- In the all-success environment each message's trace contains exactly
    one destination select. -/
theorem count_selectDst_processMessage (mbox : String) (n : Nat) :
    (processMessage okEnv mbox n).count (Event.selectDst mbox) = 1 := by
  have h : processMessage okEnv mbox n
      = [Event.fetchFlags n, Event.fetchHeader n, Event.fetchBody n,
         Event.append mbox n, Event.selectDst mbox, Event.searchDst,
         Event.store 1 (storeLiteral ["\\Seen".toList]),
         Event.logMigrated n] := rfl
  rw [h]
  simp [List.count_cons]

/-- In the all-success environment the code's transfer performs one
    destination select per message: `ids.length` in total. -/
theorem count_selectDst_transfer (mbox : String) (ids : List Nat) :
    (transferMessages okEnv mbox ids).count (Event.selectDst mbox) = ids.length := by
  induction ids with
  | nil => rfl
  | cons n rest ih =>
    simp [transferMessages, List.count_append, count_selectDst_processMessage, ih]
    omega

/-- The spec-modelled engine performs exactly one destination select per
    batch. -/
theorem count_selectDst_specBatch (env : Env) (mbox : String) (b : List Nat) :
    (specBatchTrace env mbox b).count (Event.selectDst mbox) = 1 := by
  unfold specBatchTrace
  have hA : ((b.map fun n => [Event.fetchFlags n, Event.fetchBody n]).flatten).count
      (Event.selectDst mbox) = 0 := by
    induction b with
    | nil => rfl
    | cons n rest ih => simp [List.count_append, List.count_cons, ih]
  have hB : (((b.filter fun n =>
        (env.fetchFlags n).isSome && (env.fetchBody n).isSome).map
      fun n => Event.append mbox n)).count (Event.selectDst mbox) = 0 := by
    rw [List.count_eq_zero]
    intro hmem
    simp at hmem
  simp [List.count_append, List.count_cons, hA, hB]

/-- The spec-modelled engine performs as many destination selects as there
    are batches. -/
theorem count_selectDst_specTransfer (env : Env) (mbox : String) (ids : List Nat) :
    (specBatchedTransfer env mbox ids).count (Event.selectDst mbox)
      = (spec_batches 100 ids).length := by
  unfold specBatchedTransfer
  generalize spec_batches 100 ids = bs
  induction bs with
  | nil => rfl
  | cons b rest ih =>
    simp [List.count_append, count_selectDst_specBatch, ih]
    omega

/-- C1 counterexample: 250 identifiers.  The 100-sized partition written
    from the spec does have shape [100, 100, 50], but the code's transfer
    never forms it: the trace selects the destination once per message —
    250 times, not once per batch (3 times) — and differs from the batched
    engine's trace.  The identifier list is processed in one undivided
    pass. -/
theorem C1_counterexample :
    ((spec_batches 100 (List.range 250)).map List.length = [100, 100, 50])
    ∧ (transferMessages okEnv "INBOX" (List.range 250)).count
        (Event.selectDst "INBOX") = 250
    ∧ (specBatchedTransfer okEnv "INBOX" (List.range 250)).count
        (Event.selectDst "INBOX") = 3
    ∧ transferMessages okEnv "INBOX" (List.range 250)
        ≠ specBatchedTransfer okEnv "INBOX" (List.range 250) := by
  have hshape : (spec_batches 100 (List.range 250)).map List.length
      = [100, 100, 50] := by decide
  have hlen : (spec_batches 100 (List.range 250)).length = 3 := by
    have := congrArg List.length hshape
    simpa using this
  have hcode : (transferMessages okEnv "INBOX" (List.range 250)).count
      (Event.selectDst "INBOX") = 250 := by
    rw [count_selectDst_transfer]
    simp
  have hspec : (specBatchedTransfer okEnv "INBOX" (List.range 250)).count
      (Event.selectDst "INBOX") = 3 := by
    rw [count_selectDst_specTransfer, hlen]
  refine ⟨hshape, hcode, hspec, ?_⟩
  intro h
  have hct := congrArg (List.count (Event.selectDst "INBOX")) h
  rw [hcode, hspec] at hct
  omega

/-- C1 amended: the code partitions nothing: the transfer of a mailbox's
    identifier list is one flat pass producing exactly one independent
    per-message trace per identifier, and each message's trace depends only
    on the oracles at that message — failure isolation is per message, not
    per 100-sized batch. -/
theorem C1_amended (env env' : Env) (mbox : String) (ids : List Nat) (n : Nat)
    (hf : env'.fetchFlags n = env.fetchFlags n)
    (hb : env'.fetchBody n = env.fetchBody n)
    (ha : env'.appendExc n = env.appendExc n)
    (h1 : env'.dstSelectExc n = env.dstSelectExc n)
    (h2 : env'.dstSearchExc n = env.dstSearchExc n)
    (hr : env'.dstSearchRes n = env.dstSearchRes n)
    (h3 : env'.storeExc n = env.storeExc n) :
    transferMessages env mbox ids = (ids.map (processMessage env mbox)).flatten
    ∧ (ids.map (processMessage env mbox)).length = ids.length
    ∧ processMessage env' mbox n = processMessage env mbox n := by
  refine ⟨transfer_join env mbox ids, by simp, ?_⟩
  unfold processMessage saveMessage
  rw [hf, hb, ha, h1, h2, hr, h3]

/-- Witness for C1 amended: concrete flat pass and per-message locality of
    two environments agreeing at message 7. -/
theorem C1_amended_witness :
    transferMessages okEnv "INBOX" [1, 2]
      = ([1, 2].map (processMessage okEnv "INBOX")).flatten
    ∧ processMessage env5w "INBOX" 7 = processMessage okEnv "INBOX" 7 := by
  have h := C1_amended okEnv env5w "INBOX" [1, 2] 7 rfl rfl rfl rfl rfl rfl rfl
  exact ⟨h.1, h.2.2⟩
